import Mathlib

/-!
Shallow embedding of the gfmspnl staff-management server: data model
(shared/schema.ts), credential store (server/auth.ts), storage layer
(server/storage.ts) and the route handlers of server/routes.ts that the
verified properties concern.  Database tables are embedded as Lean lists,
timestamps as natural numbers, and each route handler as a pure function
from the relevant state to an HTTP status code paired with the new state.
The scrypt key-derivation function is an opaque parameter `kdf`
(password -> salt -> digest bytes); the random 16-byte hex salt of
`hashPassword` is likewise passed in as a parameter.
-/

namespace Gfmspnl

/-- Row of the `roles` table (schema.ts). -/
structure Role where
  id : Nat
  name : String
  color : String
deriving DecidableEq, Repr

/-- Row of the `users` table (schema.ts). -/
structure User where
  id : Nat
  username : String
  password : String
  email : String
  name : String
  avatar : Option String
  isAdmin : Bool
  roleId : Option Nat
  isApproved : Bool
deriving DecidableEq, Repr

/-- Row of the `access_requests` table (schema.ts). -/
structure AccessRequest where
  id : Nat
  username : String
  email : String
  password : String
  name : String
  status : String
  requestedAt : Nat
deriving DecidableEq, Repr

/-- Row of the `messages` table (schema.ts). -/
structure Message where
  id : Nat
  senderId : Nat
  content : Option String
  messageType : String
  mediaUrl : Option String
  isDeleted : Bool
  createdAt : Nat
deriving DecidableEq, Repr

/-- Row of the `tasks` table (schema.ts). -/
structure Task where
  id : Nat
  title : String
  description : Option String
  priority : String
  status : String
  assignedTo : Option Nat
  createdBy : Nat
  dueDate : Option Nat
  createdAt : Nat
deriving DecidableEq, Repr

/-- Row of the `attendance` table (schema.ts). -/
structure Attendance where
  id : Nat
  userId : Nat
  clockIn : Nat
  clockOut : Option Nat
  date : String
deriving DecidableEq, Repr

/-! ### Credential store (server/auth.ts)

`hashPassword` / `comparePasswords` use Node's scrypt, `Buffer.toString("hex")`,
`Buffer.from(hex, "hex")`, `String.prototype.split(".")` and
`crypto.timingSafeEqual`.  Each of those primitives is embedded below.
Exceptions thrown by the Node primitives are represented by `Except.error`. -/

/-- Lower-case hex digit for a nibble, as produced by `buf.toString("hex")`. -/
def hexChar : Nat → Char
  | 0 => '0' | 1 => '1' | 2 => '2' | 3 => '3'
  | 4 => '4' | 5 => '5' | 6 => '6' | 7 => '7'
  | 8 => '8' | 9 => '9' | 10 => 'a' | 11 => 'b'
  | 12 => 'c' | 13 => 'd' | 14 => 'e' | 15 => 'f'
  | _ => '0'

/-- Value of a hex digit as accepted by `Buffer.from(_, "hex")`
(both cases accepted), `none` for a non-hex character. -/
def hexDigitVal (c : Char) : Option Nat :=
  if '0' ≤ c ∧ c ≤ '9' then some (c.toNat - '0'.toNat)
  else if 'a' ≤ c ∧ c ≤ 'f' then some (c.toNat - 'a'.toNat + 10)
  else if 'A' ≤ c ∧ c ≤ 'F' then some (c.toNat - 'A'.toNat + 10)
  else none

/-- Hex encoding of a byte list, `buf.toString("hex")`. -/
def hexEncodeL : List Nat → List Char
  | [] => []
  | b :: bs => hexChar (b / 16) :: hexChar (b % 16) :: hexEncodeL bs

/-- Hex encoding as a string. -/
def hexEncode (bs : List Nat) : String :=
  String.mk (hexEncodeL bs)

/-- Hex decoding, `Buffer.from(s, "hex")`: bytes are decoded two digits at a
time and decoding stops (truncating the result) at the first character pair
that is not two hex digits, or at a lone trailing digit. -/
def hexDecode : List Char → List Nat
  | c1 :: c2 :: rest =>
    match hexDigitVal c1, hexDigitVal c2 with
    | some h, some l => (16 * h + l) :: hexDecode rest
    | _, _ => []
  | _ => []

/-- JavaScript `s.split(".")` on the character list of `s`. -/
def splitOnDot : List Char → List (List Char)
  | [] => [[]]
  | c :: cs =>
    match splitOnDot cs with
    | [] => [[c]]
    | s :: rest => if c = '.' then [] :: s :: rest else (c :: s) :: rest

/-- Error raised by Node `crypto.timingSafeEqual` on buffers of different
byte lengths. -/
def timingLengthError : String := "ERR_CRYPTO_TIMING_SAFE_EQUAL_LENGTH"

/-- Node `crypto.timingSafeEqual`: throws a `RangeError` when the two buffers
have different lengths, otherwise compares their bytes. -/
def timingSafeEqual (a b : List Nat) : Except String Bool :=
  if a.length = b.length then .ok (a == b)
  else .error timingLengthError

/-- Error raised by `scrypt` when its salt argument is `undefined`, which
happens in `comparePasswords` when the stored value has no "." separator. -/
def saltUndefinedError : String := "ERR_INVALID_ARG_TYPE: salt is undefined"

/-- Embedding of `hashPassword` (auth.ts, lines 18-22): derive a 64-byte
digest of the password with the given salt and return `hex(digest).salt`.
The random hex salt is a parameter here. -/
def hashPassword (kdf : String → String → List Nat) (salt password : String) : String :=
  hexEncode (kdf password salt) ++ "." ++ salt

/-- Embedding of `comparePasswords` (auth.ts, lines 24-29): split the stored
value on ".", hex-decode the first component, re-derive the digest of the
supplied password with the second component as salt, and compare with
`timingSafeEqual`.  When the split yields fewer than two components the salt
is `undefined` and the scrypt call throws. -/
def comparePasswords (kdf : String → String → List Nat)
    (supplied stored : String) : Except String Bool :=
  match splitOnDot stored.data with
  | hashed :: salt :: _ =>
    timingSafeEqual (hexDecode hashed) (kdf supplied (String.mk salt))
  | _ => .error saltUndefinedError

/-! ### Storage layer (server/storage.ts, class DatabaseStorage)

Tables are lists of rows; drizzle `select ... where` is `List.find?`,
`update ... set ... where` is a guarded `List.map`, `delete ... where` is a
`List.filter`, `insert` is an append.  A drizzle partial update
(`Partial<Insert...>`) is a record of optional fields applied over a row. -/

/-- Storage `getUserByUsername`. -/
def getUserByUsername (db : List User) (username : String) : Option User :=
  db.find? fun u => u.username == username

/-- Storage `getTask`. -/
def getTask (db : List Task) (id : Nat) : Option Task :=
  db.find? fun t => t.id == id

/-- Partial task update, `Partial<InsertTask>` (`id` and `createdAt` are
omitted from `InsertTask` by the schema, so they can never be patched). -/
structure TaskPatch where
  title : Option String
  description : Option (Option String)
  priority : Option String
  status : Option String
  assignedTo : Option (Option Nat)
  createdBy : Option Nat
  dueDate : Option (Option Nat)
deriving DecidableEq, Repr

/-- Drizzle `update(tasks).set(data)` applied to one row: exactly the fields
present in the patch are overwritten. -/
def applyTaskPatch (t : Task) (p : TaskPatch) : Task :=
  { id := t.id
    title := p.title.getD t.title
    description := p.description.getD t.description
    priority := p.priority.getD t.priority
    status := p.status.getD t.status
    assignedTo := p.assignedTo.getD t.assignedTo
    createdBy := p.createdBy.getD t.createdBy
    dueDate := p.dueDate.getD t.dueDate
    createdAt := t.createdAt }

/-- Storage `updateTask` (storage.ts, lines 277-280). -/
def updateTask (db : List Task) (id : Nat) (p : TaskPatch) : List Task :=
  db.map fun t => if t.id == id then applyTaskPatch t p else t

/-- Storage `deleteRole` (storage.ts, lines 163-168): first null the role
reference of every user holding the role, then delete the role row. -/
def deleteRole (users : List User) (roles : List Role) (id : Nat) :
    List User × List Role :=
  let detached := users.map fun u =>
    if u.roleId == some id then { u with roleId := none } else u
  (detached, roles.filter fun r => !(r.id == id))

/-- Storage `deleteMessage` (storage.ts, lines 223-225): soft delete, the row
with the given id gets `isDeleted := true` and nothing is removed. -/
def deleteMessage (db : List Message) (id : Nat) : List Message :=
  db.map fun m => if m.id == id then { m with isDeleted := true } else m

/-- Storage `getAccessRequest`. -/
def getAccessRequest (db : List AccessRequest) (id : Nat) : Option AccessRequest :=
  db.find? fun r => r.id == id

/-- Storage `getAccessRequestByUsername` (storage.ts, lines 180-183): finds a
request with the username regardless of its status. -/
def getAccessRequestByUsername (db : List AccessRequest) (username : String) :
    Option AccessRequest :=
  db.find? fun r => r.username == username

/-- Storage `updateAccessRequestStatus`. -/
def updateAccessRequestStatus (db : List AccessRequest) (id : Nat) (status : String) :
    List AccessRequest :=
  db.map fun r => if r.id == id then { r with status := status } else r

/-- Storage `getTodayAttendance`: the record of the user for the given date. -/
def getTodayAttendance (db : List Attendance) (userId : Nat) (date : String) :
    Option Attendance :=
  db.find? fun a => a.userId == userId && a.date == date

/-- Partial attendance update, `Partial<InsertAttendance>`. -/
structure AttendancePatch where
  userId : Option Nat
  clockIn : Option Nat
  clockOut : Option (Option Nat)
  date : Option String
deriving DecidableEq, Repr

/-- Drizzle `update(attendance).set(data)` applied to one row. -/
def applyAttendancePatch (a : Attendance) (p : AttendancePatch) : Attendance :=
  { id := a.id
    userId := p.userId.getD a.userId
    clockIn := p.clockIn.getD a.clockIn
    clockOut := p.clockOut.getD a.clockOut
    date := p.date.getD a.date }

/-- Storage `updateAttendance` (storage.ts, lines 329-332). -/
def updateAttendance (db : List Attendance) (id : Nat) (p : AttendancePatch) :
    List Attendance :=
  db.map fun a => if a.id == id then applyAttendancePatch a p else a

/-- Insertion step of the descending sort by id used by `getAllUsers`. -/
def insertDesc (u : User) : List User → List User
  | [] => [u]
  | v :: vs => if v.id ≤ u.id then u :: v :: vs else v :: insertDesc u vs

/-- Sort users by descending id, modelling `orderBy: [desc(users.id)]`. -/
def sortByIdDesc : List User → List User
  | [] => []
  | u :: us => insertDesc u (sortByIdDesc us)

/-- User row joined with its role, the `UserWithRole` shape of schema.ts. -/
structure UserWithRole where
  user : User
  role : Option Role
deriving DecidableEq, Repr

/-- Storage `getAllUsers` (storage.ts, lines 134-142): all users ordered by
descending id, each joined with its role row (or `null`). -/
def getAllUsers (users : List User) (roles : List Role) : List UserWithRole :=
  (sortByIdDesc users).map fun u =>
    ⟨u, u.roleId.bind fun rid => roles.find? fun r => r.id == rid⟩

/-! ### Route handlers (server/routes.ts, server/auth.ts)

Each handler is a function from its inputs and the relevant table state to
an HTTP status code (the body is determined by the branch taken) paired with
the state after the handler ran.  Fire-and-forget side effects (emails,
websocket broadcasts) do not touch the modelled state and are dropped. -/

/-- Outcome of the passport `LocalStrategy` verify callback: `done(err)`,
`done(null, false, message)` or `done(null, user)`. -/
inductive AuthResult where
  | error (e : String)
  | failure (message : String)
  | success (user : User)
deriving DecidableEq, Repr

/-- Embedding of the `LocalStrategy` verify callback (auth.ts, lines 74-97):
unknown username fails, a user that is neither approved nor admin is rejected
before the password is checked, then the password is verified. -/
def localStrategyVerify (kdf : String → String → List Nat) (db : List User)
    (username password : String) : AuthResult :=
  match getUserByUsername db username with
  | none => .failure "Invalid credentials"
  | some user =>
    if !user.isApproved && !user.isAdmin then
      .failure "Account pending approval"
    else
      match comparePasswords kdf password user.password with
      | .error e => .error e
      | .ok true => .success user
      | .ok false => .failure "Invalid credentials"

/-- Handler `PATCH /api/tasks/:id` (routes.ts, lines 432-451): 404 when the
task is missing, 403 when the caller is neither the assignee nor an admin,
otherwise the whole request body is passed to `updateTask`. -/
def patchTaskRoute (db : List Task) (caller : User) (taskId : Nat)
    (body : TaskPatch) : Nat × List Task :=
  match getTask db taskId with
  | none => (404, db)
  | some task =>
    if task.assignedTo != some caller.id && !caller.isAdmin then (403, db)
    else (200, updateTask db taskId body)

/-- Handler `POST /api/attendance/clock-in` (routes.ts, lines 481-501):
conflict when a record for (user, today) exists, otherwise a new record with
a null clock-out is inserted. -/
def clockInRoute (db : List Attendance) (userId : Nat) (today : String)
    (now : Nat) (nextId : Nat) : Nat × List Attendance :=
  match getTodayAttendance db userId today with
  | some _ => (400, db)
  | none => (201, db ++ [⟨nextId, userId, now, none, today⟩])

/-- Handler `POST /api/attendance/clock-out` (routes.ts, lines 503-524):
conflict when no record for (user, today) exists or the record already has a
clock-out time, otherwise only the clock-out field is set. -/
def clockOutRoute (db : List Attendance) (userId : Nat) (today : String)
    (now : Nat) : Nat × List Attendance :=
  match getTodayAttendance db userId today with
  | none => (400, db)
  | some existing =>
    if existing.clockOut.isSome then (400, db)
    else (200, updateAttendance db existing.id
      { userId := none, clockIn := none, clockOut := some (some now), date := none })

/-- State touched by the access-request endpoints: the `access_requests` and
`users` tables plus the identity counters of both tables. -/
structure AccessState where
  requests : List AccessRequest
  users : List User
  nextUserId : Nat
  nextRequestId : Nat
deriving DecidableEq, Repr

/-- Handler `POST /api/access-requests/:id/approve` (routes.ts, lines
131-168): 404 when the request is missing, 400 when its status is not
`pending`, otherwise a new non-admin approved user is created from the
request's fields and the request's status becomes `approved`. -/
def approveAccessRequestRoute (s : AccessState) (requestId : Nat) :
    Nat × AccessState :=
  match getAccessRequest s.requests requestId with
  | none => (404, s)
  | some request =>
    if request.status != "pending" then (400, s)
    else
      let newUser : User :=
        { id := s.nextUserId
          username := request.username
          password := request.password
          email := request.email
          name := request.name
          avatar := none
          isAdmin := false
          roleId := none
          isApproved := true }
      (200, { s with
        users := s.users ++ [newUser]
        nextUserId := s.nextUserId + 1
        requests := updateAccessRequestStatus s.requests requestId "approved" })

/-- Handler `POST /api/access-requests` (routes.ts, lines 92-120): 400 when
the username belongs to an existing user, 400 when any access request with
that username exists, otherwise the password is hashed and a pending request
is persisted with status 201.  The random salt used by `hashPassword` is a
parameter. -/
def createAccessRequestRoute (kdf : String → String → List Nat) (salt : String)
    (now : Nat) (s : AccessState) (username email name password : String) :
    Nat × AccessState :=
  if (getUserByUsername s.users username).isSome then (400, s)
  else if (getAccessRequestByUsername s.requests username).isSome then (400, s)
  else
    let hashed := hashPassword kdf salt password
    (201, { s with
      requests := s.requests ++
        [⟨s.nextRequestId, username, email, hashed, name, "pending", now⟩]
      nextRequestId := s.nextRequestId + 1 })

/-- User-with-role shape after the `({ password, ...user }) => user`
destructuring of `GET /api/users`: every field except the password. -/
structure SafeUserWithRole where
  id : Nat
  username : String
  email : String
  name : String
  avatar : Option String
  isAdmin : Bool
  roleId : Option Nat
  isApproved : Bool
  role : Option Role
deriving DecidableEq, Repr

/-- Rest-spread `({ password, ...user }) => user` applied to a joined user. -/
def stripPassword (x : UserWithRole) : SafeUserWithRole :=
  { id := x.user.id
    username := x.user.username
    email := x.user.email
    name := x.user.name
    avatar := x.user.avatar
    isAdmin := x.user.isAdmin
    roleId := x.user.roleId
    isApproved := x.user.isApproved
    role := x.role }

/-- Handler `GET /api/users` (routes.ts, lines 196-205): the joined user list
with the password of every element filtered out. -/
def apiUsersRoute (users : List User) (roles : List Role) : List SafeUserWithRole :=
  (getAllUsers users roles).map stripPassword

/-! ### Concrete sample data used by the closed instance theorems -/

/-- Simple stand-in key-derivation function with the interface of the scrypt
call: fixed 64-byte output. -/
def demoKdf : String → String → List Nat :=
  fun password salt => List.replicate 63 0 ++ [(password.length + salt.length) % 256]

/-- Sample non-admin user assigned to the sample task. -/
def demoAssignee : User :=
  ⟨1, "staff", "stored-hash", "staff@gf.com", "Staff", none, false, none, true⟩

/-- Sample task assigned to `demoAssignee` and created by user 2. -/
def demoTask : Task :=
  ⟨5, "Ship report", none, "high", "pending", some 1, 2, none, 0⟩

/-- Request body patching only the title of a task. -/
def demoTitlePatch : TaskPatch :=
  ⟨some "hacked title", none, none, none, none, none, none⟩

/-- Attendance record with a pending clock-out. -/
def demoOpenAttendance : Attendance := ⟨7, 1, 900, none, "2026-10-11"⟩

/-- Attendance record that is already clocked out. -/
def demoClosedAttendance : Attendance := ⟨7, 1, 900, some 1700, "2026-10-11"⟩

/-- Pending access request. -/
def demoPendingRequest : AccessRequest :=
  ⟨3, "newuser", "new@gf.com", "hashed-pw", "New User", "pending", 10⟩

/-- Already-approved access request. -/
def demoApprovedRequest : AccessRequest :=
  ⟨4, "olduser", "old@gf.com", "hashed-pw2", "Old User", "approved", 5⟩

/-- Access-request state holding one pending and one approved request. -/
def demoAccessState : AccessState :=
  ⟨[demoPendingRequest, demoApprovedRequest], [], 50, 5⟩

/-- User awaiting approval whose stored credential is the hash of "secret". -/
def demoPendingUser : User :=
  ⟨9, "riley", hashPassword demoKdf "ab" "secret", "riley@gf.com", "Riley",
    none, false, none, false⟩

/-- Sample role held by `demoRoleUser`. -/
def demoRole : Role := ⟨3, "designer", "#ff0000"⟩

/-- Another role, held by `demoOtherUser`. -/
def demoOtherRole : Role := ⟨4, "developer", "#00ff00"⟩

/-- User holding `demoRole`. -/
def demoRoleUser : User :=
  ⟨1, "u1", "h1", "u1@gf.com", "User One", none, false, some 3, true⟩

/-- User holding `demoOtherRole`. -/
def demoOtherUser : User :=
  ⟨2, "u2", "h2", "u2@gf.com", "User Two", none, false, some 4, true⟩

/-- Sample chat message. -/
def demoMessage : Message := ⟨1, 1, some "hello", "text", none, false, 100⟩

/-- Second sample chat message, created later. -/
def demoMessage2 : Message := ⟨2, 1, some "world", "text", none, false, 200⟩

/-- Access request that was rejected; its username belongs to no user. -/
def demoRejectedRequest : AccessRequest :=
  ⟨1, "casey", "casey@gf.com", "hashed-pw3", "Casey", "rejected", 0⟩

/-- Registration state with only the rejected request and no users. -/
def demoRegisterState : AccessState := ⟨[demoRejectedRequest], [], 10, 2⟩

/-- Registration state with no users and no requests. -/
def demoEmptyState : AccessState := ⟨[], [], 1, 1⟩

/-! ### Helper lemmas -/

lemma hexChar_ne_dot (n : Nat) : hexChar n ≠ '.' := by
  unfold hexChar
  split <;> decide

lemma hexDigitVal_hexChar {n : Nat} (h : n < 16) :
    hexDigitVal (hexChar n) = some n := by
  interval_cases n <;> decide

lemma dot_not_mem_hexEncodeL (bs : List Nat) : '.' ∉ hexEncodeL bs := by
  induction bs with
  | nil => simp [hexEncodeL]
  | cons b bs ih =>
    simp only [hexEncodeL, List.mem_cons]
    rintro (h | h | h)
    · exact hexChar_ne_dot _ h.symm
    · exact hexChar_ne_dot _ h.symm
    · exact ih h

lemma hexDecode_hexEncodeL {bs : List Nat} (h : ∀ b ∈ bs, b < 256) :
    hexDecode (hexEncodeL bs) = bs := by
  induction bs with
  | nil => rfl
  | cons b bs ih =>
    have hb : b < 256 := h b (List.mem_cons_self b bs)
    have h1 : b / 16 < 16 := by omega
    have h2 : b % 16 < 16 := by omega
    simp only [hexEncodeL, hexDecode, hexDigitVal_hexChar h1, hexDigitVal_hexChar h2]
    rw [ih fun x hx => h x (List.mem_cons_of_mem b hx)]
    congr 1
    omega

lemma splitOnDot_ne_nil (xs : List Char) : splitOnDot xs ≠ [] := by
  cases xs with
  | nil => simp [splitOnDot]
  | cons c cs =>
    simp only [splitOnDot]
    rcases h : splitOnDot cs with _ | ⟨s, rest⟩
    · simp
    · by_cases hc : c = '.' <;> simp [hc]

lemma splitOnDot_no_dot {xs : List Char} (h : '.' ∉ xs) : splitOnDot xs = [xs] := by
  induction xs with
  | nil => rfl
  | cons c cs ih =>
    have hc : c ≠ '.' := fun hc => h (by simp [hc])
    have hcs : '.' ∉ cs := fun hm => h (List.mem_cons_of_mem c hm)
    simp only [splitOnDot, ih hcs]
    simp [hc]

lemma splitOnDot_append_dot {xs : List Char} (ys : List Char) (h : '.' ∉ xs) :
    splitOnDot (xs ++ '.' :: ys) = xs :: splitOnDot ys := by
  induction xs with
  | nil =>
    simp only [List.nil_append, splitOnDot]
    rcases hy : splitOnDot ys with _ | ⟨s, rest⟩
    · exact absurd hy (splitOnDot_ne_nil ys)
    · simp
  | cons c cs ih =>
    have hc : c ≠ '.' := fun hc => h (by simp [hc])
    have hcs : '.' ∉ cs := fun hm => h (List.mem_cons_of_mem c hm)
    simp only [List.cons_append, splitOnDot, List.append_eq]
    rw [ih hcs]
    simp [hc]

lemma hashPassword_data (kdf : String → String → List Nat) (salt password : String) :
    (hashPassword kdf salt password).data =
      hexEncodeL (kdf password salt) ++ '.' :: salt.data := by
  simp [hashPassword, hexEncode, String.data_append]

/-- Generic lemma about a drizzle-style guarded update followed by a
`find?` with the same guard: the found row is the updated one, provided the
update preserves the guard. -/
lemma find?_map_guard {α : Type} (p : α → Bool) (f : α → α)
    (hf : ∀ a, p (f a) = p a) :
    ∀ l : List α, (l.map fun a => if p a then f a else a).find? p = (l.find? p).map f := by
  intro l
  induction l with
  | nil => rfl
  | cons a l ih =>
    by_cases ha : p a = true
    · simp [List.find?, ha, hf a]
    · have ha' : p a = false := by simpa using ha
      simp [List.find?, ha', ih]

lemma mem_insertDesc {x u : User} {l : List User} :
    x ∈ insertDesc u l → x = u ∨ x ∈ l := by
  induction l with
  | nil => simp [insertDesc]
  | cons v vs ih =>
    simp only [insertDesc]
    split
    · simp
    · intro hx
      rcases List.mem_cons.mp hx with h | h
      · exact Or.inr (by simp [h])
      · rcases ih h with h' | h'
        · exact Or.inl h'
        · exact Or.inr (List.mem_cons_of_mem v h')

lemma mem_sortByIdDesc {x : User} {l : List User} :
    x ∈ sortByIdDesc l → x ∈ l := by
  induction l with
  | nil => simp [sortByIdDesc]
  | cons u us ih =>
    intro hx
    rcases mem_insertDesc hx with h | h
    · simp [h]
    · exact List.mem_cons_of_mem u (ih h)

/-! ### Claim C1 -/

/-- C1: for every password, hashing with `hashPassword` and checking the
original password against the stored encoded value with `comparePasswords`
returns true; checking any password whose derived digest differs from the
original's (as holds for any mutation of the password, scrypt being
collision-free) returns false.  The kdf is the scrypt call: 64-byte output
of bytes, and the salt is a random 16-byte hex string, so dot-free. -/
theorem comparePasswords_hashPassword
    (kdf : String → String → List Nat) (salt p : String)
    (hlen : ∀ q, (kdf q salt).length = 64)
    (hbytes : ∀ q, ∀ b ∈ kdf q salt, b < 256)
    (hsalt : '.' ∉ salt.data) :
    comparePasswords kdf p (hashPassword kdf salt p) = .ok true ∧
    ∀ q, kdf q salt ≠ kdf p salt →
      comparePasswords kdf q (hashPassword kdf salt p) = .ok false := by
  have hsplit : splitOnDot (hashPassword kdf salt p).data
      = [hexEncodeL (kdf p salt), salt.data] := by
    rw [hashPassword_data, splitOnDot_append_dot _ (dot_not_mem_hexEncodeL _),
        splitOnDot_no_dot hsalt]
  have hmk : String.mk salt.data = salt := rfl
  constructor
  · simp only [comparePasswords, hsplit, hmk, hexDecode_hexEncodeL (hbytes p),
      timingSafeEqual]
    simp
  · intro q hq
    simp only [comparePasswords, hsplit, hmk, hexDecode_hexEncodeL (hbytes p),
      timingSafeEqual, hlen p, hlen q]
    simp
    exact fun h => absurd h.symm hq

/-- Witness for C1: concrete kdf, salt "ab", password "x" verifies, and the
differing password "yz" is refused. -/
theorem comparePasswords_hashPassword_witness :
    comparePasswords demoKdf "x" (hashPassword demoKdf "ab" "x") = .ok true ∧
    comparePasswords demoKdf "yz" (hashPassword demoKdf "ab" "x") = .ok false := by
  have h := comparePasswords_hashPassword demoKdf "ab" "x"
    (fun q => by simp [demoKdf])
    (fun q b hb => by
      simp only [demoKdf, List.mem_append, List.mem_replicate,
        List.mem_singleton] at hb
      rcases hb with ⟨-, h0⟩ | h0 <;> omega)
    (by decide)
  exact ⟨h.1, h.2 "yz" (by decide)⟩

/-! ### Claim C2 -/

/-- C2 counterexample: a stored value with no "." separator makes
`comparePasswords` throw (the scrypt call receives an undefined salt); it
does not return false. -/
theorem comparePasswords_malformed_cex :
    comparePasswords demoKdf "pw" "deadbeef" = .error saltUndefinedError ∧
    (comparePasswords demoKdf "pw" "deadbeef").isOk = false := by
  exact ⟨rfl, rfl⟩

/-- C2 (amended): malformed stored values make `comparePasswords` fail, but
by throwing rather than by returning false: a missing "." separator throws
from the scrypt call (undefined salt), and a hash part whose decoded length
differs from the re-derived digest's length (non-hex content decodes to a
truncated buffer) throws from `timingSafeEqual`.  Verification still never
accepts a malformed stored value: an `ok true` outcome forces the stored
hash part to decode exactly to the re-derived digest. -/
theorem comparePasswords_fails_closed
    (kdf : String → String → List Nat) (supplied stored : String) :
    ('.' ∉ stored.data →
      comparePasswords kdf supplied stored = .error saltUndefinedError) ∧
    (∀ hashed salt rest, splitOnDot stored.data = hashed :: salt :: rest →
      (hexDecode hashed).length ≠ (kdf supplied (String.mk salt)).length →
      comparePasswords kdf supplied stored = .error timingLengthError) ∧
    (comparePasswords kdf supplied stored = .ok true →
      ∃ hashed salt rest, splitOnDot stored.data = hashed :: salt :: rest ∧
        hexDecode hashed = kdf supplied (String.mk salt)) := by
  refine ⟨fun hdot => ?_, fun hashed salt rest hsplit hne => ?_, fun hok => ?_⟩
  · simp [comparePasswords, splitOnDot_no_dot hdot]
  · simp [comparePasswords, hsplit, timingSafeEqual, hne]
  · rcases hsp : splitOnDot stored.data with _ | ⟨a, _ | ⟨b, rest⟩⟩
    · rw [comparePasswords, hsp] at hok
      exact Except.noConfusion hok
    · rw [comparePasswords, hsp] at hok
      exact Except.noConfusion hok
    · refine ⟨a, b, rest, rfl, ?_⟩
      rw [comparePasswords, hsp] at hok
      replace hok : timingSafeEqual (hexDecode a) (kdf supplied (String.mk b))
          = .ok true := hok
      unfold timingSafeEqual at hok
      by_cases hl : (hexDecode a).length = (kdf supplied (String.mk b)).length
      · rw [if_pos hl] at hok
        have := Except.ok.inj hok
        exact eq_of_beq this
      · rw [if_neg hl] at hok
        exact Except.noConfusion hok

/-- Witness for C2 (amended): the stored value "zz.ab" has a hash part that
is not hex, so the decoded buffer is empty and `comparePasswords` throws the
`timingSafeEqual` length error. -/
theorem comparePasswords_fails_closed_witness :
    comparePasswords demoKdf "pw" "zz.ab" = .error timingLengthError := by
  exact (comparePasswords_fails_closed demoKdf "pw" "zz.ab").2.1
    ['z', 'z'] ['a', 'b'] [] (by decide) (by decide)

/-! ### Claim C3 -/

/-- C3 counterexample: the non-admin assignee of the sample task patches its
title through `PATCH /api/tasks/:id`; the route answers 200 and the title
changes, so a field other than status changed in an assignee update. -/
theorem patchTask_status_only_cex :
    demoAssignee.isAdmin = false ∧
    (getTask [demoTask] 5).map Task.assignedTo = some (some demoAssignee.id) ∧
    (patchTaskRoute [demoTask] demoAssignee 5 demoTitlePatch).1 = 200 ∧
    (patchTaskRoute [demoTask] demoAssignee 5 demoTitlePatch).2.map Task.title
      = ["hacked title"] ∧
    [demoTask].map Task.title = ["Ship report"] := by
  decide

/-- C3 (amended): a task update by a caller that is neither an admin nor the
task's assignee fails with 403 and the task list is unchanged; when the
caller is the assignee or an admin the route accepts and applies the whole
request body through `updateTask` — every field present in the body (title,
description, priority, status, assignedTo, createdBy, dueDate) is
overwritten, not only status — while fields absent from the body and all
other tasks are unchanged. -/
theorem patchTask_spec (db : List Task) (caller : User) (taskId : Nat)
    (body : TaskPatch) (t : Task) (hfind : getTask db taskId = some t) :
    (t.assignedTo ≠ some caller.id → caller.isAdmin = false →
      patchTaskRoute db caller taskId body = (403, db)) ∧
    (t.assignedTo = some caller.id ∨ caller.isAdmin = true →
      patchTaskRoute db caller taskId body = (200, updateTask db taskId body) ∧
      getTask (updateTask db taskId body) taskId = some (applyTaskPatch t body) ∧
      (∀ u ∈ db, u.id ≠ taskId → u ∈ updateTask db taskId body) ∧
      (body.title = none → (applyTaskPatch t body).title = t.title) ∧
      (∀ s, body.title = some s → (applyTaskPatch t body).title = s) ∧
      (body.description = none → (applyTaskPatch t body).description = t.description) ∧
      (body.priority = none → (applyTaskPatch t body).priority = t.priority) ∧
      (body.status = none → (applyTaskPatch t body).status = t.status) ∧
      (body.assignedTo = none → (applyTaskPatch t body).assignedTo = t.assignedTo) ∧
      (body.createdBy = none → (applyTaskPatch t body).createdBy = t.createdBy) ∧
      (body.dueDate = none → (applyTaskPatch t body).dueDate = t.dueDate)) := by
  constructor
  · intro h1 h2
    have hc : (t.assignedTo != some caller.id && !caller.isAdmin) = true := by
      simp [bne_iff_ne, h1, h2]
    simp [patchTaskRoute, hfind, hc]
  · intro h
    have hc : (t.assignedTo != some caller.id && !caller.isAdmin) = false := by
      rcases h with h | h <;> simp [h]
    refine ⟨by simp [patchTaskRoute, hfind, hc], ?_, ?_, ?_, ?_, ?_, ?_, ?_, ?_, ?_, ?_⟩
    · have hmap := find?_map_guard (fun u : Task => u.id == taskId)
        (fun u => applyTaskPatch u body) (fun u => rfl) db
      simp only [getTask, updateTask] at hfind ⊢
      rw [hmap, hfind]
      rfl
    · intro u hu hne
      have hg : (u.id == taskId) = false := by simp [hne]
      exact List.mem_map.mpr ⟨u, hu, by simp [hg]⟩
    · intro hn; simp [applyTaskPatch, hn]
    · intro s hs; simp [applyTaskPatch, hs]
    · intro hn; simp [applyTaskPatch, hn]
    · intro hn; simp [applyTaskPatch, hn]
    · intro hn; simp [applyTaskPatch, hn]
    · intro hn; simp [applyTaskPatch, hn]
    · intro hn; simp [applyTaskPatch, hn]
    · intro hn; simp [applyTaskPatch, hn]

/-- Witness for C3 (amended): a non-assignee non-admin caller gets 403 and
the assignee's patch is applied through `updateTask`. -/
theorem patchTask_spec_witness :
    patchTaskRoute [demoTask] demoOtherUser 5 demoTitlePatch = (403, [demoTask]) ∧
    patchTaskRoute [demoTask] demoAssignee 5 demoTitlePatch
      = (200, updateTask [demoTask] 5 demoTitlePatch) := by
  refine ⟨(patchTask_spec [demoTask] demoOtherUser 5 demoTitlePatch demoTask rfl).1
      (by decide) rfl, ?_⟩
  exact ((patchTask_spec [demoTask] demoAssignee 5 demoTitlePatch demoTask rfl).2
    (Or.inl rfl)).1

/-! ### Claim C4 -/

/-- C4: the attendance routes follow the per-(user, date) state machine
absent -> clocked_in -> clocked_out: a clock-in with an existing record for
(user, today) answers a conflict and leaves the table unchanged; a clock-out
with no record answers a conflict; a clock-out on a record that already has
a clock-out time answers a conflict and leaves the table unchanged. -/
theorem attendance_state_machine (db : List Attendance) (userId : Nat)
    (today : String) (now nextId : Nat) :
    (∀ r, getTodayAttendance db userId today = some r →
      clockInRoute db userId today now nextId = (400, db)) ∧
    (getTodayAttendance db userId today = none →
      clockOutRoute db userId today now = (400, db)) ∧
    (∀ r t, getTodayAttendance db userId today = some r → r.clockOut = some t →
      clockOutRoute db userId today now = (400, db)) := by
  refine ⟨fun r hr => ?_, fun hn => ?_, fun r t hr hc => ?_⟩
  · simp [clockInRoute, hr]
  · simp [clockOutRoute, hn]
  · simp [clockOutRoute, hr, hc]

/-- Witness for C4: double clock-in, clock-out with no record, and clock-out
after clock-out all answer 400 and change nothing on concrete tables. -/
theorem attendance_state_machine_witness :
    clockInRoute [demoOpenAttendance] 1 "2026-10-11" 1000 8
      = (400, [demoOpenAttendance]) ∧
    clockOutRoute [] 1 "2026-10-11" 1000 = (400, []) ∧
    clockOutRoute [demoClosedAttendance] 1 "2026-10-11" 1800
      = (400, [demoClosedAttendance]) := by
  exact ⟨(attendance_state_machine [demoOpenAttendance] 1 "2026-10-11" 1000 8).1
      demoOpenAttendance rfl,
    (attendance_state_machine [] 1 "2026-10-11" 1000 8).2.1 rfl,
    (attendance_state_machine [demoClosedAttendance] 1 "2026-10-11" 1800 8).2.2
      demoClosedAttendance 1700 rfl rfl⟩

/-! ### Claim C5 -/

/-- C5: approving an access request whose status is not `pending` (such as
an already-approved one) answers 400 and changes nothing; a first approval
of a pending request appends a new approved non-admin user built from the
request's fields and sets the request's status to `approved`, leaving the
other requests unchanged. -/
theorem approveAccessRequest_spec (s : AccessState) (requestId : Nat)
    (r : AccessRequest) (hfind : getAccessRequest s.requests requestId = some r) :
    (r.status ≠ "pending" → approveAccessRequestRoute s requestId = (400, s)) ∧
    (r.status = "pending" →
      approveAccessRequestRoute s requestId =
        (200, { s with
          users := s.users ++
            [⟨s.nextUserId, r.username, r.password, r.email, r.name,
              none, false, none, true⟩]
          nextUserId := s.nextUserId + 1
          requests := updateAccessRequestStatus s.requests requestId "approved" }) ∧
      getAccessRequest (updateAccessRequestStatus s.requests requestId "approved")
        requestId = some { r with status := "approved" } ∧
      ∀ q ∈ s.requests, q.id ≠ requestId →
        q ∈ updateAccessRequestStatus s.requests requestId "approved") := by
  constructor
  · intro h
    have hc : (r.status != "pending") = true := by simp [bne_iff_ne, h]
    simp [approveAccessRequestRoute, hfind, hc]
  · intro h
    have hc : (r.status != "pending") = false := by simp [h]
    refine ⟨by simp [approveAccessRequestRoute, hfind, hc], ?_, ?_⟩
    · have hmap := find?_map_guard (fun q : AccessRequest => q.id == requestId)
        (fun q => { q with status := "approved" }) (fun q => rfl) s.requests
      simp only [getAccessRequest, updateAccessRequestStatus] at hfind ⊢
      rw [hmap, hfind]
      rfl
    · intro q hq hne
      have hg : (q.id == requestId) = false := by simp [hne]
      exact List.mem_map.mpr ⟨q, hq, by simp [hg]⟩

/-- Witness for C5: approving the already-approved request 4 answers 400 and
leaves the state alone; approving the pending request 3 creates the expected
user and marks the request approved. -/
theorem approveAccessRequest_spec_witness :
    approveAccessRequestRoute demoAccessState 4 = (400, demoAccessState) ∧
    (approveAccessRequestRoute demoAccessState 3).1 = 200 ∧
    (approveAccessRequestRoute demoAccessState 3).2.users =
      [⟨50, "newuser", "hashed-pw", "new@gf.com", "New User", none, false, none, true⟩] ∧
    getAccessRequest (approveAccessRequestRoute demoAccessState 3).2.requests 3 =
      some { demoPendingRequest with status := "approved" } := by
  obtain ⟨hroute, hfound, -⟩ :=
    (approveAccessRequest_spec demoAccessState 3 demoPendingRequest rfl).2 rfl
  refine ⟨(approveAccessRequest_spec demoAccessState 4 demoApprovedRequest rfl).1
      (by decide), ?_, ?_, ?_⟩
  · rw [hroute]
  · rw [hroute]
    rfl
  · rw [hroute]
    exact hfound

/-! ### Claim C6 -/

/-- C6: a login attempt by a user whose `isApproved` and `isAdmin` flags are
both false is rejected by the local strategy with "Account pending approval"
before the password is even checked — so also with correct credentials — and
any user the strategy authenticates successfully is approved or admin. -/
theorem localStrategy_requires_approval (kdf : String → String → List Nat)
    (db : List User) (username password : String) :
    (∀ u, getUserByUsername db username = some u → u.isApproved = false →
      u.isAdmin = false →
      localStrategyVerify kdf db username password
        = .failure "Account pending approval") ∧
    (∀ u, localStrategyVerify kdf db username password = .success u →
      (u.isApproved || u.isAdmin) = true) := by
  constructor
  · intro u hu ha hd
    simp [localStrategyVerify, hu, ha, hd]
  · intro u hs
    unfold localStrategyVerify at hs
    rcases hfind : getUserByUsername db username with _ | v
    · rw [hfind] at hs
      exact AuthResult.noConfusion hs
    · rw [hfind] at hs
      replace hs :
          (if !v.isApproved && !v.isAdmin then
            AuthResult.failure "Account pending approval"
          else
            match comparePasswords kdf password v.password with
            | .error e => .error e
            | .ok true => .success v
            | .ok false => .failure "Invalid credentials") = .success u := hs
      by_cases happ : (!v.isApproved && !v.isAdmin) = true
      · rw [if_pos happ] at hs
        exact AuthResult.noConfusion hs
      · rw [if_neg happ] at hs
        rcases hcp : comparePasswords kdf password v.password with e | b
        · rw [hcp] at hs
          exact AuthResult.noConfusion hs
        · rw [hcp] at hs
          cases b
          · exact AuthResult.noConfusion hs
          · replace hs : AuthResult.success v = .success u := hs
            injection hs with hvu
            subst hvu
            revert happ
            cases hv1 : v.isApproved <;> cases hv2 : v.isAdmin <;> simp

/-- Witness for C6: the pending user stores exactly the hash of "secret",
yet logging in with the correct password "secret" is rejected with the
pending-approval message. -/
theorem localStrategy_requires_approval_witness :
    demoPendingUser.password = hashPassword demoKdf "ab" "secret" ∧
    localStrategyVerify demoKdf [demoPendingUser] "riley" "secret"
      = .failure "Account pending approval" := by
  exact ⟨rfl, (localStrategy_requires_approval demoKdf [demoPendingUser]
    "riley" "secret").1 demoPendingUser rfl rfl rfl⟩

/-! ### Claim C7 -/

/-- C7: after `deleteRole`, no user references the deleted role id and the
role row is gone; every user that held the role is present with a nulled
role reference, users not holding the role and the other roles are
unchanged, and no user row is lost. -/
theorem deleteRole_spec (users : List User) (roles : List Role) (roleId : Nat) :
    (deleteRole users roles roleId).1.length = users.length ∧
    (∀ u ∈ (deleteRole users roles roleId).1, u.roleId ≠ some roleId) ∧
    (∀ r ∈ (deleteRole users roles roleId).2, r.id ≠ roleId) ∧
    (∀ u ∈ users, u.roleId = some roleId →
      { u with roleId := none } ∈ (deleteRole users roles roleId).1) ∧
    (∀ u ∈ users, u.roleId ≠ some roleId → u ∈ (deleteRole users roles roleId).1) ∧
    (∀ r ∈ roles, r.id ≠ roleId → r ∈ (deleteRole users roles roleId).2) := by
  refine ⟨by simp [deleteRole], ?_, ?_, ?_, ?_, ?_⟩
  · intro u hu
    rcases List.mem_map.mp hu with ⟨v, hv, hvu⟩
    by_cases hg : (v.roleId == some roleId) = true
    · rw [if_pos hg] at hvu
      rw [← hvu]
      simp
    · have hg' : (v.roleId == some roleId) = false := by simpa using hg
      rw [if_neg (by simp [hg'])] at hvu
      rw [← hvu]
      simpa using hg'
  · intro r hr
    have := List.of_mem_filter hr
    simpa using this
  · intro u hu hroleId
    refine List.mem_map.mpr ⟨u, hu, ?_⟩
    simp [hroleId]
  · intro u hu hroleId
    refine List.mem_map.mpr ⟨u, hu, ?_⟩
    simp [hroleId]
  · intro r hr hne
    exact List.mem_filter.mpr ⟨hr, by simp [hne]⟩

/-- Witness for C7: deleting role 3 from a two-user, two-role table nulls
the holder's reference, keeps the other user and role, and loses no row. -/
theorem deleteRole_spec_witness :
    (deleteRole [demoRoleUser, demoOtherUser] [demoRole, demoOtherRole] 3).1.length = 2 ∧
    { demoRoleUser with roleId := none }
      ∈ (deleteRole [demoRoleUser, demoOtherUser] [demoRole, demoOtherRole] 3).1 ∧
    demoOtherUser
      ∈ (deleteRole [demoRoleUser, demoOtherUser] [demoRole, demoOtherRole] 3).1 ∧
    demoOtherRole
      ∈ (deleteRole [demoRoleUser, demoOtherUser] [demoRole, demoOtherRole] 3).2 := by
  have h := deleteRole_spec [demoRoleUser, demoOtherUser] [demoRole, demoOtherRole] 3
  exact ⟨h.1, h.2.2.2.1 demoRoleUser (by simp) rfl,
    h.2.2.2.2.1 demoOtherUser (by simp) (by decide),
    h.2.2.2.2.2 demoOtherRole (by simp) (by decide)⟩

/-! ### Claim C8 -/

/-- Projections other than the soft-delete flag pass through `deleteMessage`
unchanged, position by position. -/
lemma deleteMessage_map_proj {β : Type} (db : List Message) (id : Nat)
    (proj : Message → β) (hp : ∀ m, proj { m with isDeleted := true } = proj m) :
    (deleteMessage db id).map proj = db.map proj := by
  induction db with
  | nil => rfl
  | cons m ms ih =>
    have step : deleteMessage (m :: ms) id
        = (if m.id == id then { m with isDeleted := true } else m)
          :: deleteMessage ms id := rfl
    rw [step]
    by_cases h : (m.id == id) = true
    · rw [if_pos h]
      simp only [List.map]
      rw [hp m, ih]
    · rw [if_neg h]
      simp only [List.map]
      rw [ih]

/-- C8: `deleteMessage` keeps the row count, every field of every message
except the deleted row's `isDeleted` flag — in particular each message's
creation time and hence its place in the creation-time ordering — and flips
`isDeleted` to true on the targeted row. -/
theorem deleteMessage_spec (db : List Message) (id : Nat) :
    (deleteMessage db id).length = db.length ∧
    (deleteMessage db id).map Message.id = db.map Message.id ∧
    (deleteMessage db id).map Message.createdAt = db.map Message.createdAt ∧
    (deleteMessage db id).map Message.senderId = db.map Message.senderId ∧
    (deleteMessage db id).map Message.content = db.map Message.content ∧
    (deleteMessage db id).map Message.messageType = db.map Message.messageType ∧
    (deleteMessage db id).map Message.mediaUrl = db.map Message.mediaUrl ∧
    (∀ m ∈ db, m.id = id → { m with isDeleted := true } ∈ deleteMessage db id) ∧
    (∀ m ∈ db, m.id ≠ id → m ∈ deleteMessage db id) := by
  refine ⟨by simp [deleteMessage],
    deleteMessage_map_proj db id Message.id fun m => rfl,
    deleteMessage_map_proj db id Message.createdAt fun m => rfl,
    deleteMessage_map_proj db id Message.senderId fun m => rfl,
    deleteMessage_map_proj db id Message.content fun m => rfl,
    deleteMessage_map_proj db id Message.messageType fun m => rfl,
    deleteMessage_map_proj db id Message.mediaUrl fun m => rfl, ?_, ?_⟩
  · intro m hm hid
    refine List.mem_map.mpr ⟨m, hm, ?_⟩
    simp [hid]
  · intro m hm hid
    refine List.mem_map.mpr ⟨m, hm, ?_⟩
    simp [hid]

/-- Witness for C8: soft-deleting message 1 in a two-message table keeps two
rows, the creation-time sequence, and only flips the flag of message 1. -/
theorem deleteMessage_spec_witness :
    (deleteMessage [demoMessage, demoMessage2] 1).length = 2 ∧
    (deleteMessage [demoMessage, demoMessage2] 1).map Message.createdAt = [100, 200] ∧
    { demoMessage with isDeleted := true } ∈ deleteMessage [demoMessage, demoMessage2] 1 ∧
    demoMessage2 ∈ deleteMessage [demoMessage, demoMessage2] 1 := by
  have h := deleteMessage_spec [demoMessage, demoMessage2] 1
  exact ⟨h.1, h.2.2.1, h.2.2.2.2.2.2.2.1 demoMessage (by simp) rfl,
    h.2.2.2.2.2.2.2.2 demoMessage2 (by simp) (by decide)⟩

/-! ### Claim C9 -/

/-- C9 counterexample: the username "casey" belongs to no user and its only
access request is rejected, not pending, yet `POST /api/access-requests`
answers 400 and persists nothing — where the claim promises 201 with the
persisted record, 400 being reserved for a duplicate username or a pending
request. -/
theorem createAccessRequest_pending_only_cex :
    getUserByUsername demoRegisterState.users "casey" = none ∧
    (getAccessRequestByUsername demoRegisterState.requests "casey").map
      AccessRequest.status = some "rejected" ∧
    (createAccessRequestRoute demoKdf "ab" 99 demoRegisterState
      "casey" "c@gf.com" "Casey" "pw").1 = 400 ∧
    (createAccessRequestRoute demoKdf "ab" 99 demoRegisterState
      "casey" "c@gf.com" "Casey" "pw").2 = demoRegisterState := by
  decide

/-- C9 (amended): creating an access request answers 201 with the persisted
pending request when the username neither belongs to an existing user nor
appears on any existing access request; it answers 400 (with no state
change) when the username belongs to a user, and 400 when an access request
with that username exists in any status — pending, approved or rejected —
not only when a pending one exists. -/
theorem createAccessRequest_spec (kdf : String → String → List Nat)
    (salt : String) (now : Nat) (s : AccessState)
    (username email name password : String) :
    ((getUserByUsername s.users username).isSome →
      createAccessRequestRoute kdf salt now s username email name password
        = (400, s)) ∧
    (getUserByUsername s.users username = none →
      (getAccessRequestByUsername s.requests username).isSome →
      createAccessRequestRoute kdf salt now s username email name password
        = (400, s)) ∧
    (getUserByUsername s.users username = none →
      getAccessRequestByUsername s.requests username = none →
      createAccessRequestRoute kdf salt now s username email name password =
        (201, { s with
          requests := s.requests ++
            [⟨s.nextRequestId, username, email, hashPassword kdf salt password,
              name, "pending", now⟩]
          nextRequestId := s.nextRequestId + 1 })) := by
  refine ⟨fun h => ?_, fun h1 h2 => ?_, fun h1 h2 => ?_⟩
  · simp [createAccessRequestRoute, h]
  · simp [createAccessRequestRoute, h1, h2]
  · simp [createAccessRequestRoute, h1, h2]

/-- Witness for C9 (amended): on an empty state the request is persisted
with status pending and answer 201. -/
theorem createAccessRequest_spec_witness :
    createAccessRequestRoute demoKdf "ab" 7 demoEmptyState "dana" "d@gf.com" "Dana" "pw"
      = (201, { demoEmptyState with
          requests := [⟨1, "dana", "d@gf.com", hashPassword demoKdf "ab" "pw",
            "Dana", "pending", 7⟩]
          nextRequestId := 2 }) := by
  exact (createAccessRequest_spec demoKdf "ab" 7 demoEmptyState
    "dana" "d@gf.com" "Dana" "pw").2.2 rfl rfl

/-! ### Claim C10 -/

/-- C10: the `GET /api/users` response is the joined user list with the
password dropped from every element: it has one entry per joined user, each
entry preserves every user field except the password as well as the joined
role, and every response entry comes from an actual user row of the table
with its role looked up by the user's role reference.  The response type
`SafeUserWithRole` carries no password field at all. -/
theorem apiUsers_strips_password (users : List User) (roles : List Role) :
    (apiUsersRoute users roles).length = (getAllUsers users roles).length ∧
    (∀ x ∈ getAllUsers users roles,
      stripPassword x ∈ apiUsersRoute users roles ∧
      (stripPassword x).id = x.user.id ∧
      (stripPassword x).username = x.user.username ∧
      (stripPassword x).email = x.user.email ∧
      (stripPassword x).name = x.user.name ∧
      (stripPassword x).avatar = x.user.avatar ∧
      (stripPassword x).isAdmin = x.user.isAdmin ∧
      (stripPassword x).roleId = x.user.roleId ∧
      (stripPassword x).isApproved = x.user.isApproved ∧
      (stripPassword x).role = x.role) ∧
    (∀ y ∈ apiUsersRoute users roles, ∃ u ∈ users,
      y.id = u.id ∧ y.username = u.username ∧ y.email = u.email ∧
      y.name = u.name ∧ y.avatar = u.avatar ∧ y.isAdmin = u.isAdmin ∧
      y.roleId = u.roleId ∧ y.isApproved = u.isApproved ∧
      y.role = (u.roleId.bind fun rid => roles.find? fun r => r.id == rid)) := by
  refine ⟨by simp [apiUsersRoute], ?_, ?_⟩
  · intro x hx
    exact ⟨List.mem_map_of_mem stripPassword hx, rfl, rfl, rfl, rfl, rfl, rfl,
      rfl, rfl, rfl⟩
  · intro y hy
    rcases List.mem_map.mp hy with ⟨x, hx, rfl⟩
    rcases List.mem_map.mp hx with ⟨u, hu, rfl⟩
    exact ⟨u, mem_sortByIdDesc hu, rfl, rfl, rfl, rfl, rfl, rfl, rfl, rfl, rfl⟩

/-- Witness for C10: in a two-user, two-role table the stripped entry of
user one appears in the response and carries the joined role. -/
theorem apiUsers_strips_password_witness :
    stripPassword ⟨demoRoleUser, some demoRole⟩
      ∈ apiUsersRoute [demoRoleUser, demoOtherUser] [demoRole, demoOtherRole] ∧
    (stripPassword ⟨demoRoleUser, some demoRole⟩).role = some demoRole := by
  have h := (apiUsers_strips_password [demoRoleUser, demoOtherUser]
    [demoRole, demoOtherRole]).2.1 ⟨demoRoleUser, some demoRole⟩ (by decide)
  exact ⟨h.1, rfl⟩

end Gfmspnl
